import Mathlib

/-!
# A verification model of the jbmdb migration engine

This file gives a shallow embedding, in Lean 4, of the migration engine of
the jbmdb command-line tool (Go), and proves properties of that embedding.

The tool ships several near-identical backend engines.  Each is modelled in
its own namespace:

* `PG`      — the PostgreSQL engine (`package postgres`, pgx/v5 variant);
* `PGold`   — the engine in `migrations/postgres/migrations.go`, whose
              migration functions are line-for-line identical to `PG`'s;
* `CQL`     — the Cassandra/ScyllaDB engine (`package cql`);
* `Scylla`  — the older ScyllaDB engine (`package scylladb`);
* `MySQL`   — the MySQL/MariaDB engine (`package mysql`).

Modelling conventions:

* Text is `List Char` (`Str`).  Go's `strings` functions are re-implemented
  structurally so that every definition reduces in the kernel.  Case
  conversion (`strings.ToLower`, `unicode.ToLower`, `unicode.IsUpper`,
  `strings.EqualFold`) is modelled at the ASCII level; Go additionally case-
  folds non-ASCII letters, which no property below depends on.
  `strings.TrimSpace` and `fmt.Sscanf`'s blank skipping use an ASCII-plus-
  Latin-1 white-space test.  Go slices strings by bytes; the file names and
  markers involved are ASCII, where byte and character indexing agree.
* The database is a `DB`: the rows of the `migrations` ledger table, in
  insertion order, plus the list of schema statements successfully executed
  (committed), in order.  An `Oracle` abstracts the backend's response to
  each submitted action (statement, ledger insert/delete, commit); the
  engine is deterministic given the oracle.
* A transactional backend (`PG`, `PGold`, `MySQL`) executes inside a
  `BEGIN`/`COMMIT` scope with a deferred `ROLLBACK`: effects reach the `DB`
  only if every action of the scope, including the commit, succeeds.  The
  CQL backends execute every action directly on the `DB`.
* Results carry the final `DB`, the modelled notices (skipped /
  no-migrations / clamp note), the schema statements submitted during the
  call, and an optional error.  Purely decorative progress output
  (`[MIGRATING] ... DONE`) is not modelled.
* The file system is a list of `(file name, content)` pairs in directory
  order; the migration-path configuration and directory creation are not
  modelled.
-/

deriving instance DecidableEq for Except

namespace Jbmdb

/-- Text, modelled as a list of characters. -/
abbrev Str := List Char

/-- The characters of a Lean string literal, used to write `Str` constants. -/
def str (s : String) : Str := s.data

/-- Go `unicode.IsSpace` restricted to the Latin-1 range: space, `\t`, `\n`,
vertical tab, form feed, `\r`, NEL (U+0085) and NBSP (U+00A0). -/
def isGoSpace (c : Char) : Bool :=
  c == ' ' || c == '\t' || c == '\n' || c.toNat == 11 || c.toNat == 12 ||
    c == '\r' || c.toNat == 0x85 || c.toNat == 0xA0

/-- Go `strings.ToLower`, at the ASCII level (`Char.toLower` maps `A`–`Z` to
`a`–`z` and fixes everything else). -/
def goToLower (s : Str) : Str := s.map Char.toLower

/-- Whether the text contains an ASCII uppercase letter. -/
def hasUpper (s : Str) : Bool := s.any Char.isUpper

/-- `camelToSnakeCase` (identical in all five backend files): walks the
runes; before every uppercase rune other than the first rune it inserts an
underscore, and it lowercases every rune.  The `Bool` argument is true at
the first rune (`i = 0` in the Go loop). -/
def camelToSnakeAux : Bool → Str → Str
  | _, [] => []
  | first, c :: cs =>
    (if !first && c.isUpper then ['_', c.toLower] else [c.toLower]) ++
      camelToSnakeAux false cs

/-- Go `camelToSnakeCase` on a whole string. -/
def camelToSnakeCase (s : Str) : Str := camelToSnakeAux true s

/-- Go `strings.TrimPrefix`: drop the prefix when present, else identity. -/
def goTrimPrefix (s p : Str) : Str :=
  if p.isPrefixOf s then s.drop p.length else s

/-- Go `strings.TrimSuffix`: drop the suffix when present, else identity. -/
def goTrimSuffix (s p : Str) : Str :=
  if p.isSuffixOf s then s.take (s.length - p.length) else s

/-- Go `strings.TrimSpace` (white space per `isGoSpace`). -/
def goTrimSpace (s : Str) : Str :=
  ((s.dropWhile isGoSpace).reverse.dropWhile isGoSpace).reverse

/-- Index of the first occurrence of `sep` in `s`, scanning left to right
(Go `strings.Index` for a non-empty `sep`). -/
def indexOfSub (sep : Str) : Str → Option Nat
  | [] => if sep.isEmpty then some 0 else none
  | c :: rest =>
    if sep.isPrefixOf (c :: rest) then some 0
    else (indexOfSub sep rest).map (· + 1)

/-- Fuel-driven worker for `goSplit`; each step removes at least one
character when `sep` is non-empty, so `s.length + 1` fuel always suffices. -/
def goSplitAux : Nat → Str → Str → List Str
  | 0, s, _ => [s]
  | Nat.succ fuel, s, sep =>
    match indexOfSub sep s with
    | none => [s]
    | some i => s.take i :: goSplitAux fuel (s.drop (i + sep.length)) sep

/-- Go `strings.Split s sep` for a non-empty separator: the substrings
between consecutive non-overlapping occurrences of `sep`. -/
def goSplit (s sep : Str) : List Str := goSplitAux (s.length + 1) s sep

/-- Go `strings.EqualFold`, at the ASCII level. -/
def goEqualFold (a b : Str) : Bool := goToLower a == goToLower b

/-- Go `path/filepath.Ext`: the suffix starting at the final dot of the last
path element, empty when that element has no dot. -/
def fileExt (s : Str) : Str :=
  let tail := s.reverse.takeWhile (fun c => c != '.' && c != '/')
  if (s.reverse.drop tail.length).head? = some '.' then
    '.' :: tail.reverse
  else []

/-- Decimal value of a digit list (most significant first). -/
def digitsVal (ds : Str) : Int :=
  ds.foldl (fun a c => a * 10 + (c.toNat - '0'.toNat : Int)) 0

/-- `parseInt` (identical in all backend files): `fmt.Sscanf(s, "%d", &r)`
with the error discarded, so `r` keeps its zero value unless a decimal
integer is scanned.  The `%d` verb skips leading white space, accepts an
optional ASCII sign, then needs at least one decimal digit; a value outside
the `int64` range is a scan error, likewise leaving `r = 0`. -/
def goSscanfInt (s : Str) : Int :=
  let cs := s.dropWhile isGoSpace
  let signed : Bool × Str :=
    match cs with
    | [] => (false, [])
    | c :: rest =>
      if c = '-' then (true, rest)
      else if c = '+' then (false, rest)
      else (false, c :: rest)
  let ds := signed.2.takeWhile Char.isDigit
  if ds.isEmpty then 0
  else
    let v : Int := if signed.1 then -(digitsVal ds) else digitsVal ds
    if v < -(2 ^ 63) || v > 2 ^ 63 - 1 then 0 else v

/-- Decimal rendering of an `int64`, as Go's `%d` formats it. -/
def intToStr (v : Int) : Str := (Int.repr v).data

/-- The `strings.Split(x, ";")` / `TrimSpace` / skip-empty pattern the
engines use to turn a script into the statements they execute: every
semicolon-delimited piece, trimmed, with empty pieces dropped. -/
def cleanStatements (sql : Str) : List Str :=
  ((goSplit sql (str ";")).map goTrimSpace).filter (fun s => s ≠ [])

/-- A `Migration` record as every backend file declares it: version (from
the file-name timestamp token), name, up script and down script. -/
structure Mig where
  version : Int
  name : Str
  up : Str
  down : Str
deriving Repr, DecidableEq, Inhabited

/-- The backend-resident state the engine acts on: the rows of the
`migrations` ledger table (version, name) in insertion order, and the
schema statements that have successfully executed (and, on a transactional
backend, committed), in execution order. -/
structure DB where
  ledger : List (Int × Str)
  executed : List Str
deriving Repr, DecidableEq, Inhabited

/-- The backend's response to each action the engine submits: whether a
schema statement executes, whether a ledger insert for (version, name)
succeeds, whether a ledger delete of a version succeeds, and whether the
commit of the scope working on a given version succeeds. -/
structure Oracle where
  stmtOk : Str → Bool
  insertOk : Int → Str → Bool
  deleteOk : Int → Bool
  commitOk : Int → Bool

/-- The oracle for a backend that accepts every action. -/
def allOk : Oracle := ⟨fun _ => true, fun _ _ => true, fun _ => true, fun _ => true⟩

/-- The errors the engines return, keeping the context Go's messages carry:
`parseError f` is "invalid migration format in file f"; `fileMissing f` is
"failed to read migration file f"; `applyFailed`/`recordFailed`/
`commitFailed v nm` decorate apply-time failures with the migration's
version and name, and `downFailed`/`removeFailed`/`commitFailed` likewise
at rollback time; `notFound v` is "migration v not found"; `stepFailed`
wraps a failing step of `RollbackSteps` ("failed to rollback migration
v_nm: ..."); `panicked` marks a Go runtime panic (out-of-range slice). -/
inductive MigError where
  | parseError (file : Str)
  | fileMissing (file : Str)
  | applyFailed (v : Int) (nm : Str)
  | recordFailed (v : Int) (nm : Str)
  | commitFailed (v : Int) (nm : Str)
  | downFailed (v : Int) (nm : Str)
  | removeFailed (v : Int) (nm : Str)
  | notFound (v : Int)
  | stepFailed (v : Int) (nm : Str) (inner : MigError)
  | panicked
deriving Repr, DecidableEq

/-- The modelled notices: `skipped v nm` is the "[SKIPPED] Migration v_nm
already applied" line; `noMigrations` is "No migrations to rollback";
`clampNote k` is "Note: Only k migrations available to rollback". -/
inductive Notice where
  | skipped (v : Int) (nm : Str)
  | noMigrations
  | clampNote (k : Nat)
deriving Repr, DecidableEq

/-- The outcome of an engine operation: the final database, the notices
emitted, the schema statements submitted to the backend during the call
(whether or not their effect survived), and the error, if any. -/
structure Res where
  db : DB
  notices : List Notice
  sent : List Str
  err : Option MigError
deriving Repr, DecidableEq

/-- `isMigrationApplied` (identical logic in every backend file): whether
the ledger holds a row with the given version (`SELECT COUNT(*) ... WHERE
version = $1` / `SELECT EXISTS(...)`). -/
def isMigrationApplied (db : DB) (v : Int) : Bool :=
  db.ledger.any (fun e => e.1 == v)

/-- `getLatestMigration` (identical semantics in every backend file): the
largest version in the ledger, `0` when the ledger is empty (postgres and
mysql via `COALESCE(MAX(version), 0)`; cql via `ORDER BY version DESC LIMIT
1` with `ErrNotFound` mapped to `0`). -/
def getLatestMigration (db : DB) : Int :=
  match db.ledger.map Prod.fst with
  | [] => 0
  | v :: vs => vs.foldl max v

/-- `extractTableName` (identical in every backend file): strip a leading
`create_`, a leading `add_` and a trailing `_table`, then fold camel case
to snake case. -/
def extractTableName (name : Str) : Str :=
  camelToSnakeCase
    (goTrimSuffix (goTrimPrefix (goTrimPrefix name (str "create_")) (str "add_"))
      (str "_table"))

/-- Ascending insertion into a version-sorted migration list (model of
`sort.Slice(migrations, less by version)`; `sort.Slice` is unstable, so the
order among equal versions is unspecified in Go — no property proved below
depends on it). -/
def insertAsc (m : Mig) : List Mig → List Mig
  | [] => [m]
  | x :: xs => if m.version < x.version then m :: x :: xs else x :: insertAsc m xs

/-- Sort a migration list ascending by version. -/
def sortMigsAsc (ms : List Mig) : List Mig := ms.foldr insertAsc []

/-- Descending insertion by version (model of the rollback engines'
`sort.Slice(applied, greater by version)` and of SQL `ORDER BY version
DESC`; order among equal versions unspecified in Go). -/
def insertDesc (m : Mig) : List Mig → List Mig
  | [] => [m]
  | x :: xs => if m.version > x.version then m :: x :: xs else x :: insertDesc m xs

/-- Sort a migration list descending by version. -/
def sortMigsDesc (ms : List Mig) : List Mig := ms.foldr insertDesc []

/-- Descending insertion of ledger rows by version. -/
def insertRowDesc (r : Int × Str) : List (Int × Str) → List (Int × Str)
  | [] => [r]
  | y :: ys => if r.1 > y.1 then r :: y :: ys else y :: insertRowDesc r ys

/-- Ledger rows sorted descending by version (`SELECT version, name FROM
migrations ORDER BY version DESC`). -/
def sortRowsDesc (rows : List (Int × Str)) : List (Int × Str) :=
  rows.foldr insertRowDesc []

/-- The migration directory as the engine sees it: `(file name, content)`
pairs in directory order. -/
abbrev FileStore := List (Str × Str)

/-- `os.ReadFile` against the modelled directory: the content of the first
file with the given name, if present. -/
def readFile? (files : FileStore) (name : Str) : Option Str :=
  (files.find? (fun f => f.1 == name)).map Prod.snd

/-- One file of `loadMigrations` as the postgres and cql engines process it
(the two loops are identical apart from the extension): a non-matching
extension or a file name with fewer than two underscore-separated parts is
skipped (`none`); content that does not split on the literal
`"-- Down Migration"` into exactly two sections is an error naming the
file; otherwise the parsed `Mig`, with the version scanned from the first
file-name token, the name the remaining tokens re-joined with the extension
trimmed, the up section the first split part with a leading
`"-- Up Migration"` trimmed, and both sections white-space trimmed. -/
def parseMigFile (ext : Str) (f : Str × Str) : Option (Except MigError Mig) :=
  if fileExt f.1 = ext then
    let parts := goSplit f.1 (str "_")
    if parts.length < 2 then none
    else
      let version := goSscanfInt (parts.headD [])
      let name := goTrimSuffix (List.intercalate (str "_") parts.tail) (fileExt f.1)
      let upDown := goSplit f.2 (str "-- Down Migration")
      if upDown.length = 2 then
        some (.ok
          { version := version
            name := name
            up := goTrimSpace (goTrimPrefix (upDown.headD []) (str "-- Up Migration"))
            down := goTrimSpace (upDown.getD 1 []) })
      else some (.error (.parseError f.1))
  else none

/-- The postgres/cql `loadMigrations` loop over the directory listing,
before sorting: accumulates parsed migrations in directory order and
aborts with the first per-file error. -/
def loadRaw (ext : Str) : FileStore → Except MigError (List Mig)
  | [] => .ok []
  | f :: fs =>
    match parseMigFile ext f with
    | none => loadRaw ext fs
    | some (.error e) => .error e
    | some (.ok m) => (loadRaw ext fs).map (fun ms => m :: ms)

/-- `loadMigrations` of the postgres and cql engines: the loop above, then
`sort.Slice` ascending by version. -/
def loadMigrationsExt (ext : Str) (files : FileStore) : Except MigError (List Mig) :=
  (loadRaw ext files).map sortMigsAsc

/-- Statements executed one by one inside a transaction scope (`tx.Exec` in
a loop that aborts at the first failure): the pair of the statements
submitted (the successful prefix plus, on failure, the failing statement)
and whether the whole list succeeded. -/
def txExecAll (o : Oracle) : List Str → List Str × Bool
  | [] => ([], true)
  | s :: ss =>
    if o.stmtOk s then
      let r := txExecAll o ss
      (s :: r.1, r.2)
    else ([s], false)

/-- The `for i := 0; i < steps; i++` loop of `RollbackSteps`, shared by the
three rollback engines and parameterised by the per-migration rollback:
undoes the first `k` migrations of the list, aborting at the first failure
with the step's version and name wrapped around the inner error. -/
def rollbackLoop (rollbackOne : DB → Mig → Res) (db : DB) : List Mig → Nat → Res
  | _, 0 => ⟨db, [], [], none⟩
  | [], _ + 1 => ⟨db, [], [], none⟩
  | m :: ms, k + 1 =>
    let r := rollbackOne db m
    match r.err with
    | some e => ⟨r.db, r.notices, r.sent, some (.stepFailed m.version m.name e)⟩
    | none =>
      let rest := rollbackLoop rollbackOne r.db ms k
      ⟨rest.db, r.notices ++ rest.notices, r.sent ++ rest.sent, rest.err⟩

/-- The clamp-then-loop tail of `RollbackSteps`, identical in the three
rollback engines: when `steps` exceeds the applied count, `steps` is set to
that count and the note is printed; then the loop runs `i < steps` times —
`Int.toNat` renders the Go loop's behaviour, zero iterations, for a
negative `steps`. -/
def clampLoop (rollbackOne : DB → Mig → Res) (db : DB) (sorted : List Mig)
    (count : Nat) (steps : Int) : Res :=
  if steps > (count : Int) then
    let r := rollbackLoop rollbackOne db sorted count
    ⟨r.db, .clampNote count :: r.notices, r.sent, r.err⟩
  else rollbackLoop rollbackOne db sorted steps.toNat

/-- The `Migrate` loop of the postgres and cql engines over the loaded,
sorted migration set, parameterised by the per-migration apply: applies in
order and aborts at the first error. -/
def applyAllWith (applyOne : DB → Mig → Res) (db : DB) : List Mig → Res
  | [] => ⟨db, [], [], none⟩
  | m :: ms =>
    let r := applyOne db m
    match r.err with
    | some e => ⟨r.db, r.notices, r.sent, some e⟩
    | none =>
      let rest := applyAllWith applyOne r.db ms
      ⟨rest.db, r.notices ++ rest.notices, r.sent ++ rest.sent, rest.err⟩

/-- Errors of `CreateMigration`: the pre-creation duplicate check could not
load the existing set, or the normalized table name collides with an
existing migration's. -/
inductive CreateErr where
  | loadFailed (e : MigError)
  | duplicate (table : Str) (existing : Str)
deriving Repr, DecidableEq

namespace PG

/-! ## The PostgreSQL engine (`package postgres`, pgx/v5 variant)

`applyMigration` runs in a transaction and submits the up script as one
command, lowercased (`lowercaseSQL := strings.ToLower(migration.UpSQL)`,
one `tx.Exec`); `rollbackMigration` runs in a transaction and splits the
down script on semicolons.  `RollbackSteps` reads the applied set from the
ledger descending, re-sorts it descending, clamps the step count and loops.
-/

/-- `loadMigrations`: reads the directory, processes `.sql` files. -/
def loadMigrations (files : FileStore) : Except MigError (List Mig) :=
  loadMigrationsExt (str ".sql") files

/-- `applyMigration`: skip (with notice) when the version is in the ledger;
otherwise open a transaction, execute the lowercased up script as a single
command, insert the ledger row, and commit — any failure discards every
effect of the scope (the deferred `tx.Rollback`). -/
def applyMigration (o : Oracle) (db : DB) (m : Mig) : Res :=
  if isMigrationApplied db m.version then
    ⟨db, [.skipped m.version m.name], [], none⟩
  else
    let sql := goToLower m.up
    if o.stmtOk sql then
      if o.insertOk m.version m.name then
        if o.commitOk m.version then
          ⟨⟨db.ledger ++ [(m.version, m.name)], db.executed ++ [sql]⟩, [], [sql], none⟩
        else ⟨db, [], [sql], some (.commitFailed m.version m.name)⟩
      else ⟨db, [], [sql], some (.recordFailed m.version m.name)⟩
    else ⟨db, [], [sql], some (.applyFailed m.version m.name)⟩

/-- `Migrate`: ensure the ledger table exists (a no-op here: the modelled
ledger always exists), load the migration set, apply each in order. -/
def Migrate (o : Oracle) (db : DB) (files : FileStore) : Res :=
  match loadMigrations files with
  | .error e => ⟨db, [], [], some e⟩
  | .ok ms => applyAllWith (applyMigration o) db ms

/-- `rollbackMigration`: in a transaction, execute each semicolon-delimited
non-empty statement of the down script, delete the ledger row for the
version, and commit; any failure discards every effect of the scope. -/
def rollbackMigration (o : Oracle) (db : DB) (m : Mig) : Res :=
  let stmts := cleanStatements m.down
  let r := txExecAll o stmts
  if r.2 then
    if o.deleteOk m.version then
      if o.commitOk m.version then
        ⟨⟨db.ledger.filter (fun e => e.1 ≠ m.version), db.executed ++ stmts⟩,
          [], r.1, none⟩
      else ⟨db, [], r.1, some (.commitFailed m.version m.name)⟩
    else ⟨db, [], r.1, some (.removeFailed m.version m.name)⟩
  else ⟨db, [], r.1, some (.downFailed m.version m.name)⟩

/-- `getAppliedMigrations` inner loop: for each ledger row (descending by
version) re-read the file `{version}_{name}.sql`, require exactly one
`"-- Down Migration"` split point, and keep the trimmed down section (the
up section stays at its zero value). -/
def getAppliedAux (files : FileStore) : List (Int × Str) → Except MigError (List Mig)
  | [] => .ok []
  | (v, nm) :: rest =>
    let filename := intToStr v ++ str "_" ++ nm ++ str ".sql"
    match readFile? files filename with
    | none => .error (.fileMissing filename)
    | some content =>
      let parts := goSplit content (str "-- Down Migration")
      if parts.length = 2 then
        (getAppliedAux files rest).map
          (fun ms => ⟨v, nm, [], goTrimSpace (parts.getD 1 [])⟩ :: ms)
      else .error (.parseError filename)

/-- `getAppliedMigrations`: `SELECT version, name FROM migrations ORDER BY
version DESC`, then the re-read loop above. -/
def getAppliedMigrations (files : FileStore) (db : DB) : Except MigError (List Mig) :=
  getAppliedAux files (sortRowsDesc db.ledger)

/-- `RollbackSteps`: fetch the applied set; when it is empty print the
no-migrations notice and stop; otherwise sort it descending by version,
clamp `steps` to its size (with a note) and roll the first `steps` entries
back, aborting at the first failure. -/
def RollbackSteps (o : Oracle) (db : DB) (files : FileStore) (steps : Int) : Res :=
  match getAppliedMigrations files db with
  | .error e => ⟨db, [], [], some e⟩
  | .ok applied =>
    if applied.length = 0 then ⟨db, [.noMigrations], [], none⟩
    else clampLoop (rollbackMigration o) db (sortMigsDesc applied) applied.length steps

/-- `RollbackLast`: take the latest applied version (`0` = none), reload
the migration set, find the record with that version (the Go loop leaves
the zero-valued `Migration{}` when nothing matches, caught by the
`Version == 0` check), and roll it back. -/
def RollbackLast (o : Oracle) (db : DB) (files : FileStore) : Res :=
  let latest := getLatestMigration db
  if latest = 0 then ⟨db, [.noMigrations], [], none⟩
  else
    match loadMigrations files with
    | .error e => ⟨db, [], [], some e⟩
    | .ok ms =>
      let target := (ms.find? (fun m => m.version == latest)).getD ⟨0, [], [], []⟩
      if target.version = 0 then ⟨db, [], [], some (.notFound latest)⟩
      else rollbackMigration o db target

/-- `checkDuplicateTableName`: load the existing set (failure aborts the
creation) and reject when any existing migration's extracted table name
equals the new one under `strings.EqualFold`. -/
def checkDuplicateTableName (files : FileStore) (newTableName : Str) : Option CreateErr :=
  match loadMigrations files with
  | .error e => some (.loadFailed e)
  | .ok ms =>
    match ms.find? (fun m => goEqualFold (extractTableName m.name) newTableName) with
    | some m => some (.duplicate newTableName m.name)
    | none => none

/-- `CreateMigration`: extract the target table name, run the duplicate
check, and only then write `{timestamp}_{name}.sql` — the result is the
name of the file written (the templated content and directory creation are
not modelled; on error nothing is written). -/
def CreateMigration (files : FileStore) (timestamp name : Str) : Except CreateErr Str :=
  match checkDuplicateTableName files (extractTableName name) with
  | some e => .error e
  | none => .ok (timestamp ++ str "_" ++ name ++ str ".sql")

end PG

/-- Statements executed one by one directly on the session (no transaction,
the cql engines): the final database (the effect of every statement before
the first failure persists), the statements submitted, and whether all
succeeded. -/
def execSeq (o : Oracle) (db : DB) : List Str → DB × List Str × Bool
  | [] => (db, [], true)
  | s :: ss =>
    if o.stmtOk s then
      let r := execSeq o { db with executed := db.executed ++ [s] } ss
      (r.1, s :: r.2.1, r.2.2)
    else (db, [s], false)

namespace CQL

/-! ## The Cassandra/ScyllaDB engine (`package cql`)

The backend has no multi-statement transactions: `applyMigration` and
`rollbackMigration` run each semicolon-delimited statement directly on the
session, so a failure partway leaves the earlier statements' effects in
place. -/

/-- `loadMigrations`: reads the directory, processes `.cql` files (the loop
is identical to the postgres engine's). -/
def loadMigrations (files : FileStore) : Except MigError (List Mig) :=
  loadMigrationsExt (str ".cql") files

/-- `applyMigration`: skip (with notice) when the version is in the ledger;
otherwise execute each semicolon-delimited non-empty statement of the up
script directly on the session, aborting at the first failure with the
migration's version and name in the error, then insert the ledger row.
Effects of statements before a failure persist; no ledger row is written
unless every statement succeeded. -/
def applyMigration (o : Oracle) (db : DB) (m : Mig) : Res :=
  if isMigrationApplied db m.version then
    ⟨db, [.skipped m.version m.name], [], none⟩
  else
    let r := execSeq o db (cleanStatements m.up)
    if r.2.2 then
      if o.insertOk m.version m.name then
        ⟨{ r.1 with ledger := r.1.ledger ++ [(m.version, m.name)] }, [], r.2.1, none⟩
      else ⟨r.1, [], r.2.1, some (.recordFailed m.version m.name)⟩
    else ⟨r.1, [], r.2.1, some (.applyFailed m.version m.name)⟩

/-- `Migrate`: ensure the ledger table exists (a no-op in the model), load
the migration set, apply each in order. -/
def Migrate (o : Oracle) (db : DB) (files : FileStore) : Res :=
  match loadMigrations files with
  | .error e => ⟨db, [], [], some e⟩
  | .ok ms => applyAllWith (applyMigration o) db ms

/-- `rollbackMigration`: execute each semicolon-delimited non-empty
statement of the down script directly on the session (aborting at the
first failure, whose effects before it persist), then delete the ledger
row for the version. -/
def rollbackMigration (o : Oracle) (db : DB) (m : Mig) : Res :=
  let r := execSeq o db (cleanStatements m.down)
  if r.2.2 then
    if o.deleteOk m.version then
      ⟨{ r.1 with ledger := r.1.ledger.filter (fun e => e.1 ≠ m.version) },
        [], r.2.1, none⟩
    else ⟨r.1, [], r.2.1, some (.removeFailed m.version m.name)⟩
  else ⟨r.1, [], r.2.1, some (.downFailed m.version m.name)⟩

/-- `getAppliedMigrations` inner loop: for each ledger row re-read
`{version}_{name}.cql`, require exactly one `"-- Down Migration"` split
point, keep the trimmed down section. -/
def getAppliedAux (files : FileStore) : List (Int × Str) → Except MigError (List Mig)
  | [] => .ok []
  | (v, nm) :: rest =>
    let filename := intToStr v ++ str "_" ++ nm ++ str ".cql"
    match readFile? files filename with
    | none => .error (.fileMissing filename)
    | some content =>
      let parts := goSplit content (str "-- Down Migration")
      if parts.length = 2 then
        (getAppliedAux files rest).map
          (fun ms => ⟨v, nm, [], goTrimSpace (parts.getD 1 [])⟩ :: ms)
      else .error (.parseError filename)

/-- `getAppliedMigrations`: `SELECT version, name FROM migrations` (no
ordering clause; the iteration order is modelled as the ledger's insertion
order), then the re-read loop above. -/
def getAppliedMigrations (files : FileStore) (db : DB) : Except MigError (List Mig) :=
  getAppliedAux files db.ledger

/-- `RollbackSteps`: fetch the applied set; when empty print the
no-migrations notice and stop; otherwise sort descending, clamp `steps`
(with a note) and roll the first `steps` entries back. -/
def RollbackSteps (o : Oracle) (db : DB) (files : FileStore) (steps : Int) : Res :=
  match getAppliedMigrations files db with
  | .error e => ⟨db, [], [], some e⟩
  | .ok applied =>
    if applied.length = 0 then ⟨db, [.noMigrations], [], none⟩
    else clampLoop (rollbackMigration o) db (sortMigsDesc applied) applied.length steps

/-- `RollbackLast`: latest applied version (`0` = none), reload the set,
find the record with that version (zero-valued `Migration{}` when nothing
matches), roll it back. -/
def RollbackLast (o : Oracle) (db : DB) (files : FileStore) : Res :=
  let latest := getLatestMigration db
  if latest = 0 then ⟨db, [.noMigrations], [], none⟩
  else
    match loadMigrations files with
    | .error e => ⟨db, [], [], some e⟩
    | .ok ms =>
      let target := (ms.find? (fun m => m.version == latest)).getD ⟨0, [], [], []⟩
      if target.version = 0 then ⟨db, [], [], some (.notFound latest)⟩
      else rollbackMigration o db target

/-- `checkDuplicateTableName` (cql engine): load the existing set and
reject when any existing migration's extracted table name equals the new
one under `strings.EqualFold`. -/
def checkDuplicateTableName (files : FileStore) (newTableName : Str) : Option CreateErr :=
  match loadMigrations files with
  | .error e => some (.loadFailed e)
  | .ok ms =>
    match ms.find? (fun m => goEqualFold (extractTableName m.name) newTableName) with
    | some m => some (.duplicate newTableName m.name)
    | none => none

/-- `CreateMigration` (cql engine): extract the target table name, run the
duplicate check, and only then write `{timestamp}_{name}.cql`. -/
def CreateMigration (files : FileStore) (timestamp name : Str) : Except CreateErr Str :=
  match checkDuplicateTableName files (extractTableName name) with
  | some e => .error e
  | none => .ok (timestamp ++ str "_" ++ name ++ str ".cql")

end CQL

namespace Scylla

/-! ## The older ScyllaDB engine (`package scylladb`)

Its migration functions are line-for-line identical to the cql engine's,
except that `CreateMigration` has no duplicate-table-name check. -/

/-- `applyMigration` of the scylladb engine, identical to the cql one. -/
def applyMigration (o : Oracle) (db : DB) (m : Mig) : Res :=
  CQL.applyMigration o db m

/-- `CreateMigration` (scylladb engine): extracts the table name for the
templated content but performs no duplicate check — the file
`{timestamp}_{name}.cql` is always written. -/
def CreateMigration (_files : FileStore) (timestamp name : Str) : Except CreateErr Str :=
  .ok (timestamp ++ str "_" ++ name ++ str ".cql")

end Scylla

namespace PGold

/-! ## The engine of `migrations/postgres/migrations.go`

Its `loadMigrations`, `applyMigration`, `Migrate` and rollback functions
are line-for-line identical to the pgx/v5 postgres engine's (`PG`), apart
from reading the directory root instead of its `sql/` subdirectory, which
the model does not distinguish; its `CreateMigration` has no
duplicate-table-name check. -/

/-- `applyMigration` of `migrations/postgres/migrations.go`, identical to
`PG.applyMigration`: one transaction, the up script lowercased and
submitted as a single command, then the ledger insert, then the commit. -/
def applyMigration (o : Oracle) (db : DB) (m : Mig) : Res :=
  PG.applyMigration o db m

/-- `CreateMigration` of `migrations/postgres/migrations.go`: extracts the
table name for the templated content but performs no duplicate check — the
file `{timestamp}_{name}.sql` is always written. -/
def CreateMigration (_files : FileStore) (timestamp name : Str) : Except CreateErr Str :=
  .ok (timestamp ++ str "_" ++ name ++ str ".sql")

end PGold

namespace MySQL

/-! ## The MySQL/MariaDB engine (`package mysql`)

`loadMigrations` differs from the other engines: it selects files by the
`.sql` suffix, slices the file name by byte index (`name[:14]`,
`name[15:]`, a runtime panic when the name is shorter) and indexes the
second piece of an `"-- Up Migration"` split (a runtime panic when the
marker is absent).  `Migrate` performs the already-applied check itself,
silently, and `applyMigration` has none.  `RollbackSteps` relies on the
SQL `ORDER BY version DESC` and does not re-sort. -/

/-- One file of the mysql `loadMigrations` loop: skip names not ending in
`.sql`; a name shorter than 15 characters panics on the slice; content must
split on `"-- Down Migration"` into exactly two pieces (else an error
naming the file); the first piece must contain `"-- Up Migration"` (else
indexing `[1]` panics); the version is scanned from the first 14
characters and the name is characters 15.. with the `.sql` suffix
trimmed. -/
def loadOne (f : Str × Str) : Option (Except MigError Mig) :=
  if (str ".sql").isSuffixOf f.1 then
    if f.1.length < 15 then some (.error .panicked)
    else
      let version := goSscanfInt (f.1.take 14)
      let name := goTrimSuffix (f.1.drop 15) (str ".sql")
      let parts := goSplit f.2 (str "-- Down Migration")
      if parts.length = 2 then
        let upParts := goSplit (parts.headD []) (str "-- Up Migration")
        if upParts.length < 2 then some (.error .panicked)
        else
          some (.ok
            { version := version
              name := name
              up := goTrimSpace (upParts.getD 1 [])
              down := goTrimSpace (parts.getD 1 []) })
      else some (.error (.parseError f.1))
  else none

/-- The mysql `loadMigrations` loop before sorting. -/
def loadRaw : FileStore → Except MigError (List Mig)
  | [] => .ok []
  | f :: fs =>
    match loadOne f with
    | none => loadRaw fs
    | some (.error e) => .error e
    | some (.ok m) => (loadRaw fs).map (fun ms => m :: ms)

/-- `loadMigrations` (mysql): the loop above, then `sort.Slice` ascending
by version.  (A missing directory returns the empty set in Go; the
modelled directory always exists.) -/
def loadMigrations (files : FileStore) : Except MigError (List Mig) :=
  (loadRaw files).map sortMigsAsc

/-- `applyMigration` (mysql): open a transaction, execute each
semicolon-delimited non-empty statement of the up script, insert the
ledger row, commit; any failure discards every effect of the scope (the
deferred `tx.Rollback`).  The already-applied check lives in `Migrate`,
not here. -/
def applyMigration (o : Oracle) (db : DB) (m : Mig) : Res :=
  let stmts := cleanStatements m.up
  let r := txExecAll o stmts
  if r.2 then
    if o.insertOk m.version m.name then
      if o.commitOk m.version then
        ⟨⟨db.ledger ++ [(m.version, m.name)], db.executed ++ stmts⟩, [], r.1, none⟩
      else ⟨db, [], r.1, some (.commitFailed m.version m.name)⟩
    else ⟨db, [], r.1, some (.recordFailed m.version m.name)⟩
  else ⟨db, [], r.1, some (.applyFailed m.version m.name)⟩

/-- The `Migrate` loop (mysql): for each migration in order, silently skip
it when its version is in the ledger (no notice is printed), else apply
it, aborting at the first error (which Go decorates with the version and
name — the model's `applyMigration` errors already carry them). -/
def migrateAll (o : Oracle) (db : DB) : List Mig → Res
  | [] => ⟨db, [], [], none⟩
  | m :: ms =>
    if isMigrationApplied db m.version then migrateAll o db ms
    else
      let r := applyMigration o db m
      match r.err with
      | some e => ⟨r.db, r.notices, r.sent, some e⟩
      | none =>
        let rest := migrateAll o r.db ms
        ⟨rest.db, r.notices ++ rest.notices, r.sent ++ rest.sent, rest.err⟩

/-- `Migrate` (mysql): ensure the ledger table exists (a no-op in the
model), load the migration set, run the loop above. -/
def Migrate (o : Oracle) (db : DB) (files : FileStore) : Res :=
  match loadMigrations files with
  | .error e => ⟨db, [], [], some e⟩
  | .ok ms => migrateAll o db ms

/-- `rollbackMigration` (mysql): in a transaction, execute each
semicolon-delimited non-empty statement of the down script, delete the
ledger row, commit; any failure discards every effect of the scope. -/
def rollbackMigration (o : Oracle) (db : DB) (m : Mig) : Res :=
  let stmts := cleanStatements m.down
  let r := txExecAll o stmts
  if r.2 then
    if o.deleteOk m.version then
      if o.commitOk m.version then
        ⟨⟨db.ledger.filter (fun e => e.1 ≠ m.version), db.executed ++ stmts⟩,
          [], r.1, none⟩
      else ⟨db, [], r.1, some (.commitFailed m.version m.name)⟩
    else ⟨db, [], r.1, some (.removeFailed m.version m.name)⟩
  else ⟨db, [], r.1, some (.downFailed m.version m.name)⟩

/-- `getAppliedMigrations` (mysql): ledger rows descending by version, each
re-read from `{version}_{name}.sql` exactly as the postgres engine
does. -/
def getAppliedMigrations (files : FileStore) (db : DB) : Except MigError (List Mig) :=
  PG.getAppliedAux files (sortRowsDesc db.ledger)

/-- `RollbackSteps` (mysql): fetch the applied set (already descending from
the SQL ordering — this engine does not re-sort it); when empty print the
no-migrations notice and stop; otherwise clamp `steps` (with a note) and
roll the first `steps` entries back. -/
def RollbackSteps (o : Oracle) (db : DB) (files : FileStore) (steps : Int) : Res :=
  match getAppliedMigrations files db with
  | .error e => ⟨db, [], [], some e⟩
  | .ok applied =>
    if applied.length = 0 then ⟨db, [.noMigrations], [], none⟩
    else clampLoop (rollbackMigration o) db applied applied.length steps

/-- `checkDuplicateTableName` (mysql): load the existing set and reject
when any existing migration's extracted table name equals the new one
under `strings.EqualFold`. -/
def checkDuplicateTableName (files : FileStore) (newTableName : Str) : Option CreateErr :=
  match loadMigrations files with
  | .error e => some (.loadFailed e)
  | .ok ms =>
    match ms.find? (fun m => goEqualFold (extractTableName m.name) newTableName) with
    | some m => some (.duplicate newTableName m.name)
    | none => none

/-- `CreateMigration` (mysql): extract the target table name, run the
duplicate check, and only then write `{timestamp}_{name}.sql`. -/
def CreateMigration (files : FileStore) (timestamp name : Str) : Except CreateErr Str :=
  match checkDuplicateTableName files (extractTableName name) with
  | some e => .error e
  | none => .ok (timestamp ++ str "_" ++ name ++ str ".sql")

end MySQL

/-! ## Shared fixtures

Concrete inputs used by the closed theorems and witnesses below. -/

/-- An empty database: no ledger rows, nothing executed. -/
def dbEmpty : DB := ⟨[], []⟩

/-- A database whose ledger records version 1, `create_users_table`. -/
def dbOne : DB := ⟨[(1, str "create_users_table")], []⟩

/-- A well-formed migration file body: one up statement, one
`"-- Down Migration"` marker, one down statement. -/
def contentUsers : Str :=
  str "-- Up Migration\ncreate table users (id int);\n-- Down Migration\ndrop table users;\n"

/-- A directory with the single file `1_create_users_table.sql`. -/
def filesOneSql : FileStore := [(str "1_create_users_table.sql", contentUsers)]

/-- A directory with the single file `1_create_users_table.cql`. -/
def filesOneCql : FileStore := [(str "1_create_users_table.cql", contentUsers)]

/-! ## Helper lemmas -/

/-- Lowercasing moves an ASCII uppercase letter: its code point gains 32. -/
theorem upper_toLower_ne (c : Char) (h : c.isUpper = true) : c.toLower ≠ c := by
  simp only [Char.isUpper, Bool.and_eq_true, decide_eq_true_eq] at h
  obtain ⟨h1, h2⟩ := h
  have hn1 : 65 ≤ c.toNat := h1
  have hn2 : c.toNat ≤ 90 := h2
  intro heq
  have hval : c.toLower.toNat = c.toNat + 32 := by
    simp only [Char.toLower, hn1, hn2, and_true, if_pos, ge_iff_le, le_refl]
    have hv : (c.toNat + 32).isValidChar := Or.inl (by omega)
    simp only [Char.ofNat, hv, dite_true]
    rfl
  rw [heq] at hval
  omega

/-- A text containing an ASCII uppercase letter is changed by lowercasing. -/
theorem goToLower_ne_of_hasUpper (s : Str) (h : hasUpper s = true) :
    goToLower s ≠ s := by
  induction s with
  | nil => simp [hasUpper] at h
  | cons c cs ih =>
    intro heq
    simp only [goToLower, List.map_cons, List.cons.injEq] at heq
    simp only [hasUpper, List.any_cons, Bool.or_eq_true] at h
    rcases h with h | h
    · exact upper_toLower_ne c h heq.1
    · exact ih h heq.2

/-- When every statement of a transactional loop succeeds, the submitted
list is the whole statement list. -/
theorem txExecAll_ok_sent (o : Oracle) (l : List Str)
    (h : (txExecAll o l).2 = true) : (txExecAll o l).1 = l := by
  induction l with
  | nil => rfl
  | cons s ss ih =>
    simp only [txExecAll] at *
    by_cases hs : o.stmtOk s = true
    · simp only [hs, if_true] at *
      simpa using ih h
    · simp [hs] at h

/-- An oracle on which every schema statement fails. -/
def noExec : Oracle := ⟨fun _ => false, fun _ _ => true, fun _ => true, fun _ => true⟩

/-- A migration record with an all-lowercase one-statement up script. -/
def migUsers : Mig :=
  ⟨1, str "create_users_table", str "create table users (id int);",
    str "drop table users;"⟩

/-! ## The claims -/

/-- C1: the claim says `rollbackSteps(-1)` (the "all applied" sentinel the
CLI passes for `rollback:all`) rolls back every applied migration, leaving
the applied set empty.  The code never maps `-1` to the applied count: the
clamp only shrinks a too-large positive `steps`, and the loop
`for i := 0; i < steps; i++` runs zero times for `steps = -1`.  On a
database with one applied migration whose file is present and well-formed,
all three rollback engines return success having rolled back nothing: the
ledger still holds the row, no down statement is submitted, and no notice
or error is produced. -/
theorem c1_rollback_all_rolls_back_nothing :
    PG.RollbackSteps allOk dbOne filesOneSql (-1) = ⟨dbOne, [], [], none⟩ ∧
    CQL.RollbackSteps allOk dbOne filesOneCql (-1) = ⟨dbOne, [], [], none⟩ ∧
    MySQL.RollbackSteps allOk dbOne filesOneSql (-1) = ⟨dbOne, [], [], none⟩ := by
  decide

/-- C3: on the transactional backends (postgres and mysql), whenever
`applyMigration` returns an error — a failed up statement, a failed ledger
insert, or a failed commit — the database, schema effects and ledger
alike, is exactly as it was before the call: every effect lived in the
transaction scope the deferred rollback discards. -/
theorem c3_transactional_apply_atomic_on_error :
    (∀ (o : Oracle) (db : DB) (m : Mig),
      (PG.applyMigration o db m).err.isSome = true →
        (PG.applyMigration o db m).db = db) ∧
    (∀ (o : Oracle) (db : DB) (m : Mig),
      (MySQL.applyMigration o db m).err.isSome = true →
        (MySQL.applyMigration o db m).db = db) := by
  constructor
  · intro o db m h
    simp only [PG.applyMigration] at h ⊢
    split_ifs at h ⊢ <;> simp_all
  · intro o db m h
    simp only [MySQL.applyMigration] at h ⊢
    split_ifs at h ⊢ <;> simp_all

/-- Witness for C3: a concrete failing apply (every statement refused) on
the postgres engine errors out and leaves the empty database unchanged. -/
theorem c3_transactional_apply_atomic_on_error_witness :
    (PG.applyMigration noExec dbEmpty migUsers).db = dbEmpty :=
  c3_transactional_apply_atomic_on_error.1 noExec dbEmpty migUsers (by decide)

/-- A migration whose up script contains uppercase letters (quoted
identifier style), for C9's witness. -/
def migMixedCase : Mig :=
  ⟨1, str "create_users_table", str "CREATE TABLE Users (id INT);",
    str "drop table users;"⟩

/-- C9: the postgres `applyMigration` (both in the pgx/v5 file and in
`migrations/postgres/migrations.go`, whose definition is identical) does
not send the up script as written: on the non-skip path the single command
submitted to the backend is `strings.ToLower` of the up section, and
whenever the up section contains an uppercase letter the submitted text
differs from it. -/
theorem c9_pg_lowercases_up_script :
    (∀ (o : Oracle) (db : DB) (m : Mig),
      isMigrationApplied db m.version = false →
        (PG.applyMigration o db m).sent = [goToLower m.up] ∧
          (hasUpper m.up = true → goToLower m.up ≠ m.up)) ∧
    (∀ (o : Oracle) (db : DB) (m : Mig),
      PGold.applyMigration o db m = PG.applyMigration o db m) := by
  constructor
  · intro o db m h
    refine ⟨?_, fun hu => goToLower_ne_of_hasUpper m.up hu⟩
    simp only [PG.applyMigration, h, Bool.false_eq_true, if_false]
    split_ifs <;> rfl
  · intro o db m
    rfl

/-- Witness for C9: a concrete mixed-case up script is submitted lowercased
and differs from the file's up section. -/
theorem c9_pg_lowercases_up_script_witness :
    (PG.applyMigration allOk dbEmpty migMixedCase).sent = [goToLower migMixedCase.up] ∧
      (hasUpper migMixedCase.up = true → goToLower migMixedCase.up ≠ migMixedCase.up) :=
  c9_pg_lowercases_up_script.1 allOk dbEmpty migMixedCase (by decide)

/-- A migration whose up script holds two semicolon-delimited statements. -/
def migTwoStmt : Mig :=
  ⟨1, str "create_users_table", str "create table a (x int);\ndrop table b;",
    str "drop table a;"⟩

/-- Counterexample to C2: the claim says every transactional backend's
`applyMigration` executes each semicolon-delimited non-empty statement of
the up script in order.  The postgres engine does not: on a two-statement
up script it submits exactly one command — the whole script, lowercased —
which is not the statement list. -/
theorem c2_postgres_submits_one_command :
    (cleanStatements migTwoStmt.up).length = 2 ∧
    (PG.applyMigration allOk dbEmpty migTwoStmt).sent = [goToLower migTwoStmt.up] ∧
    (PG.applyMigration allOk dbEmpty migTwoStmt).sent ≠ cleanStatements migTwoStmt.up := by
  decide

/-- C2 as amended: on the mysql engine a successful `applyMigration`
executes each semicolon-delimited non-empty statement of the up script in
order, then inserts the ledger record, then commits, all in one
transaction scope; the postgres engine does the same except that it
submits the entire up script, lowercased, as a single command instead of
statement by statement. -/
theorem c2_transactional_apply_amended :
    (∀ (o : Oracle) (db : DB) (m : Mig),
      (MySQL.applyMigration o db m).err = none →
        MySQL.applyMigration o db m =
          ⟨⟨db.ledger ++ [(m.version, m.name)], db.executed ++ cleanStatements m.up⟩,
            [], cleanStatements m.up, none⟩) ∧
    (∀ (o : Oracle) (db : DB) (m : Mig),
      isMigrationApplied db m.version = false →
      (PG.applyMigration o db m).err = none →
        PG.applyMigration o db m =
          ⟨⟨db.ledger ++ [(m.version, m.name)], db.executed ++ [goToLower m.up]⟩,
            [], [goToLower m.up], none⟩) := by
  constructor
  · intro o db m h
    simp only [MySQL.applyMigration] at h ⊢
    by_cases h2 : (txExecAll o (cleanStatements m.up)).2 = true
    · rw [txExecAll_ok_sent o _ h2] at h ⊢
      simp only [h2, if_true] at h ⊢
      split_ifs at h ⊢ <;> simp_all
    · simp only [h2] at h
      simp at h
  · intro o db m h0 h
    simp only [PG.applyMigration, h0, Bool.false_eq_true, if_false] at h ⊢
    split_ifs at h ⊢ <;> simp_all

/-- Witness for C2 (amended): concrete successful applies on both engines
land the statements and the ledger row together. -/
theorem c2_transactional_apply_amended_witness :
    MySQL.applyMigration allOk dbEmpty migTwoStmt =
      ⟨⟨dbEmpty.ledger ++ [(migTwoStmt.version, migTwoStmt.name)],
          dbEmpty.executed ++ cleanStatements migTwoStmt.up⟩,
        [], cleanStatements migTwoStmt.up, none⟩ ∧
    PG.applyMigration allOk dbEmpty migUsers =
      ⟨⟨dbEmpty.ledger ++ [(migUsers.version, migUsers.name)],
          dbEmpty.executed ++ [goToLower migUsers.up]⟩,
        [], [goToLower migUsers.up], none⟩ :=
  ⟨c2_transactional_apply_amended.1 allOk dbEmpty migTwoStmt (by decide),
    c2_transactional_apply_amended.2 allOk dbEmpty migUsers (by decide) (by decide)⟩

/-- Counterexample to C8: the claim says every backend's `CreateMigration`
rejects a duplicate normalized table name before writing.  With an
existing `create_users_table` migration on disk — a set on which the cql
engine's own duplicate check fires — the scylladb engine and the engine of
`migrations/postgres/migrations.go` both write the new file anyway. -/
theorem c8_scylla_and_old_pg_write_despite_duplicate :
    CQL.checkDuplicateTableName filesOneCql
        (extractTableName (str "create_users_table")) ≠ none ∧
    Scylla.CreateMigration filesOneCql (str "20250101000000")
        (str "create_users_table") =
      .ok (str "20250101000000_create_users_table.cql") ∧
    PGold.CreateMigration filesOneSql (str "20250101000000")
        (str "create_users_table") =
      .ok (str "20250101000000_create_users_table.sql") := by
  decide

/-- C8 as amended: the cql, postgres (pgx/v5) and mysql engines normalize
the requested name and refuse to write when the normalized target matches
an existing record's, case-insensitively; the scylladb engine and the one
in `migrations/postgres/migrations.go` write the file unconditionally,
with no duplicate check. -/
theorem c8_duplicate_check_amended :
    (∀ (files : FileStore) (ts name : Str) (ms : List Mig) (m : Mig),
      CQL.loadMigrations files = .ok ms → m ∈ ms →
      goEqualFold (extractTableName m.name) (extractTableName name) = true →
      ∃ e, CQL.CreateMigration files ts name = .error e) ∧
    (∀ (files : FileStore) (ts name : Str) (ms : List Mig) (m : Mig),
      PG.loadMigrations files = .ok ms → m ∈ ms →
      goEqualFold (extractTableName m.name) (extractTableName name) = true →
      ∃ e, PG.CreateMigration files ts name = .error e) ∧
    (∀ (files : FileStore) (ts name : Str) (ms : List Mig) (m : Mig),
      MySQL.loadMigrations files = .ok ms → m ∈ ms →
      goEqualFold (extractTableName m.name) (extractTableName name) = true →
      ∃ e, MySQL.CreateMigration files ts name = .error e) ∧
    (∀ (files : FileStore) (ts name : Str),
      Scylla.CreateMigration files ts name =
        .ok (ts ++ str "_" ++ name ++ str ".cql")) ∧
    (∀ (files : FileStore) (ts name : Str),
      PGold.CreateMigration files ts name =
        .ok (ts ++ str "_" ++ name ++ str ".sql")) := by
  refine ⟨?_, ?_, ?_, fun _ _ _ => rfl, fun _ _ _ => rfl⟩
  · intro files ts name ms m hload hm hf
    have hfind :
        (ms.find? (fun x =>
          goEqualFold (extractTableName x.name) (extractTableName name))).isSome = true :=
      List.find?_isSome.mpr ⟨m, hm, hf⟩
    simp only [CQL.CreateMigration, CQL.checkDuplicateTableName, hload]
    cases hfs : ms.find? (fun x =>
        goEqualFold (extractTableName x.name) (extractTableName name)) with
    | none => rw [hfs] at hfind; simp at hfind
    | some x => exact ⟨_, rfl⟩
  · intro files ts name ms m hload hm hf
    have hfind :
        (ms.find? (fun x =>
          goEqualFold (extractTableName x.name) (extractTableName name))).isSome = true :=
      List.find?_isSome.mpr ⟨m, hm, hf⟩
    simp only [PG.CreateMigration, PG.checkDuplicateTableName, hload]
    cases hfs : ms.find? (fun x =>
        goEqualFold (extractTableName x.name) (extractTableName name)) with
    | none => rw [hfs] at hfind; simp at hfind
    | some x => exact ⟨_, rfl⟩
  · intro files ts name ms m hload hm hf
    have hfind :
        (ms.find? (fun x =>
          goEqualFold (extractTableName x.name) (extractTableName name))).isSome = true :=
      List.find?_isSome.mpr ⟨m, hm, hf⟩
    simp only [MySQL.CreateMigration, MySQL.checkDuplicateTableName, hload]
    cases hfs : ms.find? (fun x =>
        goEqualFold (extractTableName x.name) (extractTableName name)) with
    | none => rw [hfs] at hfind; simp at hfind
    | some x => exact ⟨_, rfl⟩

/-- Witness for C8 (amended): on a directory already holding
`create_users_table`, the cql engine refuses to create it again. -/
theorem c8_duplicate_check_amended_witness :
    ∃ e, CQL.CreateMigration filesOneCql (str "2") (str "create_users_table") =
      .error e :=
  c8_duplicate_check_amended.1 filesOneCql (str "2") (str "create_users_table")
    [migUsers] migUsers (by decide) (by decide) (by decide)

/-- A database whose ledger records a migration with version 0. -/
def dbZero : DB := ⟨[(0, str "x")], []⟩

/-- Counterexample to C10: the claim says `parseInt` returns 0 for every
leading file-name token that does not begin with a decimal digit.
`fmt.Sscanf`'s `%d` verb also accepts an ASCII sign: the token `-5` begins
with `-`, not a digit, yet scans to `-5`, and the file `-5_users_table.sql`
loads with version `-5`, not `0`. -/
theorem c10_sign_token_scans_nonzero :
    goSscanfInt (str "-5") = -5 ∧ ('-'.isDigit = false) ∧
    (PG.loadMigrations [(str "-5_users_table.sql", contentUsers)]).map
        (fun l => l.map Mig.version) = .ok [(-5 : Int)] := by
  decide

/-- C10 as amended: `parseInt` returns 0 whenever the token's first
character (if any) is not a decimal digit, not an ASCII sign, and not
white space (all of which `%d` consumes); and a ledger entry with version
0 survives every `RollbackLast` call — `0` doubles as the
no-migrations/not-found sentinel, so a version-0 migration can never be
rolled back by `RollbackLast`. -/
theorem c10_parseint_zero_sentinel_amended :
    (∀ s : Str,
      (∀ c, s.head? = some c →
        c.isDigit = false ∧ c ≠ '-' ∧ c ≠ '+' ∧ isGoSpace c = false) →
      goSscanfInt s = 0) ∧
    (∀ (o : Oracle) (db : DB) (files : FileStore) (nm : Str),
      (0, nm) ∈ db.ledger → (0, nm) ∈ (PG.RollbackLast o db files).db.ledger) := by
  constructor
  · intro s h
    cases s with
    | nil => rfl
    | cons c rest =>
      obtain ⟨hd, hm, hp, hs⟩ := h c rfl
      simp only [goSscanfInt, List.dropWhile_cons, hs, Bool.false_eq_true, if_false,
        hm, hp, List.takeWhile_cons, hd]
      rfl
  · intro o db files nm h
    simp only [PG.RollbackLast]
    split_ifs with h1
    · exact h
    · cases hload : PG.loadMigrations files with
      | error e => exact h
      | ok ms =>
        simp only []
        split_ifs with h2
        · exact h
        · simp only [PG.rollbackMigration]
          split_ifs with h3 h4 h5
          · simp only [List.mem_filter]
            refine ⟨h, ?_⟩
            simp only [decide_eq_true_eq]
            exact fun hh => h2 hh.symm
          · exact h
          · exact h
          · exact h

/-- Witness for C10 (amended): the token `abc` scans to 0, and a version-0
ledger row survives `RollbackLast`. -/
theorem c10_parseint_zero_sentinel_amended_witness :
    goSscanfInt (str "abc") = 0 ∧
      (0, str "x") ∈ (PG.RollbackLast allOk dbZero []).db.ledger :=
  ⟨c10_parseint_zero_sentinel_amended.1 (str "abc")
      (fun c hc => by
        rw [show (str "abc").head? = some 'a' from rfl] at hc
        cases hc
        decide),
    c10_parseint_zero_sentinel_amended.2 allOk dbZero [] (str "x") (by decide)⟩

/-- A sequential (non-transactional) execution whose statement list starts
with an all-succeeding prefix and then a failing statement stops at that
statement: the prefix's effects persist, the ledger is untouched, and the
submitted list is the prefix plus the failing statement. -/
theorem execSeq_first_fail (o : Oracle) (pre : List Str) (s : Str) (post : List Str)
    (db : DB) (hpre : ∀ t ∈ pre, o.stmtOk t = true) (hs : o.stmtOk s = false) :
    execSeq o db (pre ++ s :: post) =
      (⟨db.ledger, db.executed ++ pre⟩, pre ++ [s], false) := by
  induction pre generalizing db with
  | nil =>
    simp only [List.nil_append, execSeq, hs, Bool.false_eq_true, if_false,
      List.append_nil]
  | cons t ts ih =>
    have ht : o.stmtOk t = true := hpre t (by simp)
    simp only [List.cons_append, execSeq, ht, if_true, List.append_eq]
    rw [ih _ (fun u hu => hpre u (by simp [hu]))]
    simp [List.append_assoc]

/-- An oracle on which exactly the statement `boom` fails. -/
def oracleNoBoom : Oracle :=
  ⟨fun s => !(s == str "boom"), fun _ _ => true, fun _ => true, fun _ => true⟩

/-- A migration whose up script fails at its second of three statements
under `oracleNoBoom`. -/
def migBoom : Mig :=
  ⟨1, str "create_users_table",
    str "create table a (x int);\nboom;\ndrop table c;", str "drop table a;"⟩

/-- C4: on the non-transactional cql backend, when the up script's
statements succeed up to some point and the next one fails,
`applyMigration` leaves the earlier statements' effects in place, writes
no ledger row, and returns an error carrying the migration's version and
name; and the `Migrate` loop aborts there — the remaining queue is never
processed (its result does not depend on the migrations after the failing
one).  The scylladb engine's `applyMigration` is definitionally the same
function. -/
theorem c4_cql_partial_failure :
    (∀ (o : Oracle) (db : DB) (m : Mig) (pre post : List Str) (s : Str),
      isMigrationApplied db m.version = false →
      cleanStatements m.up = pre ++ s :: post →
      (∀ t ∈ pre, o.stmtOk t = true) → o.stmtOk s = false →
      CQL.applyMigration o db m =
        ⟨⟨db.ledger, db.executed ++ pre⟩, [], pre ++ [s],
          some (.applyFailed m.version m.name)⟩) ∧
    (∀ (o : Oracle) (db : DB) (m : Mig) (rest : List Mig) (e : MigError),
      (CQL.applyMigration o db m).err = some e →
      applyAllWith (CQL.applyMigration o) db (m :: rest) =
        ⟨(CQL.applyMigration o db m).db, (CQL.applyMigration o db m).notices,
          (CQL.applyMigration o db m).sent, some e⟩) := by
  constructor
  · intro o db m pre post s h0 hsplit hpre hs
    simp only [CQL.applyMigration, h0, Bool.false_eq_true, if_false, hsplit]
    rw [execSeq_first_fail o pre s post db hpre hs]
    rfl
  · intro o db m rest e h
    simp only [applyAllWith, h]

/-- Witness for C4: with `boom` failing as the second of three statements,
the first statement's effect persists, no ledger row appears, and the
error names version 1 and `create_users_table`. -/
theorem c4_cql_partial_failure_witness :
    CQL.applyMigration oracleNoBoom dbEmpty migBoom =
      ⟨⟨dbEmpty.ledger, dbEmpty.executed ++ [str "create table a (x int)"]⟩, [],
        [str "create table a (x int)"] ++ [str "boom"],
        some (.applyFailed migBoom.version migBoom.name)⟩ :=
  c4_cql_partial_failure.1 oracleNoBoom dbEmpty migBoom
    [str "create table a (x int)"] [str "drop table c"] (str "boom")
    (by decide) (by decide) (by decide) (by decide)

/-- Excess steps reduce to the clamp: when `steps` exceeds the count, the
clamp-and-loop tail behaves as at `steps = count`, with the clamp note
prepended. -/
theorem clampLoop_excess (f : DB → Mig → Res) (db : DB) (l : List Mig) (count : Nat)
    (n : Int) (h : (count : Int) < n) :
    clampLoop f db l count n =
      ⟨(clampLoop f db l count (count : Int)).db,
        .clampNote count :: (clampLoop f db l count (count : Int)).notices,
        (clampLoop f db l count (count : Int)).sent,
        (clampLoop f db l count (count : Int)).err⟩ := by
  simp only [clampLoop, gt_iff_lt, h, if_true, lt_irrefl, if_false, Int.toNat_natCast]

/-- C5: on each backend, `rollbackSteps(n)` with `n` larger than the
applied count behaves as `rollbackSteps(appliedCount)`: same final
database, same error (so no error on account of the excess), same
submitted statements; and a note is emitted — the clamp note when
anything is applied, the shared no-migrations notice when nothing is. -/
theorem c5_rollback_steps_clamped :
    (∀ (o : Oracle) (db : DB) (files : FileStore) (n : Int) (l : List Mig),
      PG.getAppliedMigrations files db = .ok l → (l.length : Int) < n →
      (PG.RollbackSteps o db files n).db =
          (PG.RollbackSteps o db files (l.length : Int)).db ∧
        (PG.RollbackSteps o db files n).err =
          (PG.RollbackSteps o db files (l.length : Int)).err ∧
        (PG.RollbackSteps o db files n).sent =
          (PG.RollbackSteps o db files (l.length : Int)).sent ∧
        (l.length = 0 → (PG.RollbackSteps o db files n).notices =
          (PG.RollbackSteps o db files (l.length : Int)).notices) ∧
        (0 < l.length → (PG.RollbackSteps o db files n).notices =
          .clampNote l.length :: (PG.RollbackSteps o db files (l.length : Int)).notices)) ∧
    (∀ (o : Oracle) (db : DB) (files : FileStore) (n : Int) (l : List Mig),
      CQL.getAppliedMigrations files db = .ok l → (l.length : Int) < n →
      (CQL.RollbackSteps o db files n).db =
          (CQL.RollbackSteps o db files (l.length : Int)).db ∧
        (CQL.RollbackSteps o db files n).err =
          (CQL.RollbackSteps o db files (l.length : Int)).err ∧
        (CQL.RollbackSteps o db files n).sent =
          (CQL.RollbackSteps o db files (l.length : Int)).sent ∧
        (l.length = 0 → (CQL.RollbackSteps o db files n).notices =
          (CQL.RollbackSteps o db files (l.length : Int)).notices) ∧
        (0 < l.length → (CQL.RollbackSteps o db files n).notices =
          .clampNote l.length :: (CQL.RollbackSteps o db files (l.length : Int)).notices)) ∧
    (∀ (o : Oracle) (db : DB) (files : FileStore) (n : Int) (l : List Mig),
      MySQL.getAppliedMigrations files db = .ok l → (l.length : Int) < n →
      (MySQL.RollbackSteps o db files n).db =
          (MySQL.RollbackSteps o db files (l.length : Int)).db ∧
        (MySQL.RollbackSteps o db files n).err =
          (MySQL.RollbackSteps o db files (l.length : Int)).err ∧
        (MySQL.RollbackSteps o db files n).sent =
          (MySQL.RollbackSteps o db files (l.length : Int)).sent ∧
        (l.length = 0 → (MySQL.RollbackSteps o db files n).notices =
          (MySQL.RollbackSteps o db files (l.length : Int)).notices) ∧
        (0 < l.length → (MySQL.RollbackSteps o db files n).notices =
          .clampNote l.length :: (MySQL.RollbackSteps o db files (l.length : Int)).notices)) := by
  refine ⟨?_, ?_, ?_⟩
  · intro o db files n l hload hn
    simp only [PG.RollbackSteps, hload]
    by_cases h0 : l.length = 0
    · simp [h0]
    · simp only [h0, if_false]
      rw [clampLoop_excess _ _ _ _ _ hn]
      simp [h0]
  · intro o db files n l hload hn
    simp only [CQL.RollbackSteps, hload]
    by_cases h0 : l.length = 0
    · simp [h0]
    · simp only [h0, if_false]
      rw [clampLoop_excess _ _ _ _ _ hn]
      simp [h0]
  · intro o db files n l hload hn
    simp only [MySQL.RollbackSteps, hload]
    by_cases h0 : l.length = 0
    · simp [h0]
    · simp only [h0, if_false]
      rw [clampLoop_excess _ _ _ _ _ hn]
      simp [h0]

/-- The applied-set record `getAppliedMigrations` produces for `dbOne` from
`filesOneSql`/`filesOneCql`: the re-read keeps only the down section. -/
def migApplied1 : Mig := ⟨1, str "create_users_table", [], str "drop table users;"⟩

/-- A directory-listing entry the postgres/cql loaders process rather than
skip: matching extension and at least two underscore-separated name
parts. -/
def isProcessed (ext : Str) (f : Str × Str) : Bool :=
  fileExt f.1 == ext && decide (2 ≤ (goSplit f.1 (str "_")).length)

/-- A file whose content does not split on the `"-- Down Migration"` marker
into exactly one up and one down section. -/
def badSplit (f : Str × Str) : Bool :=
  decide ((goSplit f.2 (str "-- Down Migration")).length ≠ 2)

/-- The postgres/cql loader loop aborts at the first processed, badly-split
file, with the error naming it. -/
theorem loadRaw_first_bad (ext : Str) (files : FileStore) (f : Str × Str)
    (h : files.find? (fun g => isProcessed ext g && badSplit g) = some f) :
    loadRaw ext files = .error (.parseError f.1) := by
  induction files with
  | nil => simp at h
  | cons g gs ih =>
    rw [List.find?_cons] at h
    by_cases hp : (isProcessed ext g && badSplit g) = true
    · rw [hp] at h
      injection h with hf
      subst hf
      simp only [isProcessed, badSplit, Bool.and_eq_true, beq_iff_eq,
        decide_eq_true_eq] at hp
      obtain ⟨⟨hext, hlen⟩, hbad⟩ := hp
      have hlt : ¬((goSplit g.1 (str "_")).length < 2) := by omega
      simp only [loadRaw, parseMigFile, hext, if_pos]
      rw [if_neg hlt, if_neg hbad]
    · rw [Bool.not_eq_true] at hp
      rw [hp] at h
      cases hpar : parseMigFile ext g with
      | none =>
        simp only [loadRaw, hpar]
        exact ih h
      | some r =>
        cases r with
        | ok m =>
          simp only [loadRaw, hpar]
          rw [ih h]
          rfl
        | error e =>
          exfalso
          simp only [parseMigFile] at hpar
          split_ifs at hpar with h1 h2 h3 <;>
            simp_all [isProcessed, badSplit]

/-- A directory-listing entry on which the mysql loader stops with an
error or a panic: a `.sql`-suffixed name whose processing does not yield a
migration. -/
def mysqlLoadErr (f : Str × Str) : Bool :=
  match MySQL.loadOne f with
  | some (.error _) => true
  | _ => false

/-- The mysql loader loop aborts at its first erroring file; when that
file's name is long enough not to panic and its content is badly split,
the error is the parse error naming it. -/
theorem mysqlLoadRaw_first_bad (files : FileStore) (f : Str × Str)
    (h : files.find? mysqlLoadErr = some f) (hlen : 15 ≤ f.1.length)
    (hbad : badSplit f = true) :
    MySQL.loadRaw files = .error (.parseError f.1) := by
  induction files with
  | nil => simp at h
  | cons g gs ih =>
    rw [List.find?_cons] at h
    by_cases hp : mysqlLoadErr g = true
    · rw [hp] at h
      injection h with hf
      subst hf
      have hsuf : (str ".sql").isSuffixOf g.1 = true := by
        by_contra hns
        rw [Bool.not_eq_true] at hns
        simp [mysqlLoadErr, MySQL.loadOne, hns] at hp
      simp only [badSplit, decide_eq_true_eq] at hbad
      have hnlt : ¬(g.1.length < 15) := by omega
      simp only [MySQL.loadRaw, MySQL.loadOne, hsuf, if_pos, if_true]
      rw [if_neg hnlt, if_neg hbad]
    · rw [Bool.not_eq_true] at hp
      rw [hp] at h
      cases hone : MySQL.loadOne g with
      | none =>
        simp only [MySQL.loadRaw, hone]
        exact ih h
      | some r =>
        cases r with
        | ok m =>
          simp only [MySQL.loadRaw, hone]
          rw [ih h]
          rfl
        | error e =>
          exfalso
          simp [mysqlLoadErr, hone] at hp

/-- Counterexample to C6: the claim says every loader returns a
`ParseError` naming the malformed file.  The mysql loader does not always:
its `name[:14]`/`name[15:]` byte slices run before the content is ever
examined, so a `.sql` file with a short name — here the single, malformed
`b_t.sql`, which the claim covers — crashes the load with a slice-bounds
panic instead of returning the parse error naming the file. -/
theorem c6_mysql_short_name_panics :
    (str ".sql").isSuffixOf (str "b_t.sql") = true ∧
    badSplit (str "b_t.sql", str "no marker here") = true ∧
    MySQL.loadMigrations [(str "b_t.sql", str "no marker here")] =
      .error .panicked ∧
    MySQL.loadMigrations [(str "b_t.sql", str "no marker here")] ≠
      .error (.parseError (str "b_t.sql")) := by
  decide

/-- C6 as amended: when a processed migration file's content does not
split on the literal down-migration marker into exactly one up and one
down section, `loadMigrations` aborts the entire load — no migration set
is returned for any of the files.  The postgres and cql loaders return the
parse error naming that file (the first such file, in directory order);
the mysql loader does so too provided the first file it stops at has a
name of at least 15 characters, since a shorter `.sql` name makes its
`name[:14]`/`name[15:]` slices panic before the content check instead of
returning the parse error. -/
theorem c6_malformed_file_aborts_load :
    (∀ (files : FileStore) (f : Str × Str),
      files.find? (fun g => isProcessed (str ".sql") g && badSplit g) = some f →
      PG.loadMigrations files = .error (.parseError f.1)) ∧
    (∀ (files : FileStore) (f : Str × Str),
      files.find? (fun g => isProcessed (str ".cql") g && badSplit g) = some f →
      CQL.loadMigrations files = .error (.parseError f.1)) ∧
    (∀ (files : FileStore) (f : Str × Str),
      files.find? mysqlLoadErr = some f → 15 ≤ f.1.length → badSplit f = true →
      MySQL.loadMigrations files = .error (.parseError f.1)) := by
  refine ⟨?_, ?_, ?_⟩
  · intro files f h
    show (loadRaw (str ".sql") files).map sortMigsAsc = _
    rw [loadRaw_first_bad (str ".sql") files f h]
    rfl
  · intro files f h
    show (loadRaw (str ".cql") files).map sortMigsAsc = _
    rw [loadRaw_first_bad (str ".cql") files f h]
    rfl
  · intro files f h hlen hbad
    show (MySQL.loadRaw files).map sortMigsAsc = _
    rw [mysqlLoadRaw_first_bad files f h hlen hbad]
    rfl

/-- A well-formed file followed by one with no down-migration marker. -/
def filesBadSql : FileStore :=
  [(str "1_create_users_table.sql", contentUsers),
    (str "2_bad_table.sql", str "no marker here")]

/-- A mysql-style directory whose single file has no down-migration
marker. -/
def filesBadMySql : FileStore :=
  [(str "20240101000000_bad_table.sql", str "no marker here")]

/-- Witness for C6: a directory whose second file lacks the marker makes
the whole postgres load fail naming that file, and likewise for the mysql
loader. -/
theorem c6_malformed_file_aborts_load_witness :
    PG.loadMigrations filesBadSql = .error (.parseError (str "2_bad_table.sql")) ∧
    MySQL.loadMigrations filesBadMySql =
      .error (.parseError (str "20240101000000_bad_table.sql")) :=
  ⟨c6_malformed_file_aborts_load.1 filesBadSql
      (str "2_bad_table.sql", str "no marker here") (by decide),
    c6_malformed_file_aborts_load.2.2 filesBadMySql
      (str "20240101000000_bad_table.sql", str "no marker here")
      (by decide) (by decide) (by decide)⟩

/-- Witness for C5: with one applied migration, `rollbackSteps(5)` matches
`rollbackSteps(1)` in state, error and submitted statements, and emits the
clamp note. -/
theorem c5_rollback_steps_clamped_witness :
    (PG.RollbackSteps allOk dbOne filesOneSql 5).db =
        (PG.RollbackSteps allOk dbOne filesOneSql (([migApplied1] : List Mig).length : Int)).db ∧
      (PG.RollbackSteps allOk dbOne filesOneSql 5).err =
        (PG.RollbackSteps allOk dbOne filesOneSql (([migApplied1] : List Mig).length : Int)).err ∧
      (PG.RollbackSteps allOk dbOne filesOneSql 5).sent =
        (PG.RollbackSteps allOk dbOne filesOneSql (([migApplied1] : List Mig).length : Int)).sent ∧
      (([migApplied1] : List Mig).length = 0 →
        (PG.RollbackSteps allOk dbOne filesOneSql 5).notices =
          (PG.RollbackSteps allOk dbOne filesOneSql (([migApplied1] : List Mig).length : Int)).notices) ∧
      (0 < ([migApplied1] : List Mig).length →
        (PG.RollbackSteps allOk dbOne filesOneSql 5).notices =
          .clampNote ([migApplied1] : List Mig).length ::
            (PG.RollbackSteps allOk dbOne filesOneSql (([migApplied1] : List Mig).length : Int)).notices) :=
  c5_rollback_steps_clamped.1 allOk dbOne filesOneSql 5 [migApplied1]
    (by decide) (by decide)

/-- The postgres/cql apply loop only appends ledger rows. -/
theorem applyAllWith_ledger_append (applyOne : DB → Mig → Res)
    (hA : ∀ db m, ∃ ext, (applyOne db m).db.ledger = db.ledger ++ ext)
    (ms : List Mig) (db : DB) :
    ∃ ext, (applyAllWith applyOne db ms).db.ledger = db.ledger ++ ext := by
  induction ms generalizing db with
  | nil => exact ⟨[], by simp [applyAllWith]⟩
  | cons m rest ih =>
    obtain ⟨e1, he1⟩ := hA db m
    cases herr : (applyOne db m).err with
    | some e =>
      refine ⟨e1, ?_⟩
      simp only [applyAllWith, herr]
      exact he1
    | none =>
      obtain ⟨e2, he2⟩ := ih ((applyOne db m).db)
      refine ⟨e1 ++ e2, ?_⟩
      simp only [applyAllWith, herr]
      rw [he2, he1, List.append_assoc]

/-- A version applied before the apply loop is still applied after it. -/
theorem applyAllWith_applied_mono (applyOne : DB → Mig → Res)
    (hA : ∀ db m, ∃ ext, (applyOne db m).db.ledger = db.ledger ++ ext)
    (ms : List Mig) (db : DB) (v : Int) (h : isMigrationApplied db v = true) :
    isMigrationApplied (applyAllWith applyOne db ms).db v = true := by
  obtain ⟨ext, hext⟩ := applyAllWith_ledger_append applyOne hA ms db
  simp only [isMigrationApplied] at h ⊢
  rw [hext, List.any_append, h, Bool.true_or]

/-- After an error-free apply loop every processed migration is recorded as
applied. -/
theorem applyAllWith_all_applied (applyOne : DB → Mig → Res)
    (hA : ∀ db m, ∃ ext, (applyOne db m).db.ledger = db.ledger ++ ext)
    (hS : ∀ db m, (applyOne db m).err = none →
      isMigrationApplied (applyOne db m).db m.version = true)
    (ms : List Mig) (db : DB) (h : (applyAllWith applyOne db ms).err = none) :
    ∀ m ∈ ms, isMigrationApplied (applyAllWith applyOne db ms).db m.version = true := by
  induction ms generalizing db with
  | nil => intro m hm; simp at hm
  | cons m0 rest ih =>
    intro m hm
    simp only [applyAllWith] at h ⊢
    cases herr : (applyOne db m0).err with
    | some e =>
      rw [herr] at h
      exact Option.noConfusion h
    | none =>
      rw [herr] at h
      rcases List.mem_cons.mp hm with heq | hm2
      · subst heq
        exact applyAllWith_applied_mono applyOne hA rest _ _ (hS db m herr)
      · exact ih _ h m hm2

/-- An apply loop over an all-applied set skips every entry: the database
is untouched, nothing is submitted, and one skipped notice appears per
migration. -/
theorem applyAllWith_skip_run (applyOne : DB → Mig → Res)
    (hK : ∀ db m, isMigrationApplied db m.version = true →
      applyOne db m = ⟨db, [.skipped m.version m.name], [], none⟩)
    (ms : List Mig) (db : DB) (h : ∀ m ∈ ms, isMigrationApplied db m.version = true) :
    applyAllWith applyOne db ms =
      ⟨db, ms.map (fun m => .skipped m.version m.name), [], none⟩ := by
  induction ms with
  | nil => rfl
  | cons m rest ih =>
    have hm := hK db m (h m (List.mem_cons_self m rest))
    simp only [applyAllWith, hm]
    rw [ih (fun m' hm' => h m' (List.mem_cons_of_mem m hm'))]
    rfl

/-- Sequential (non-transactional) execution never touches the ledger. -/
theorem execSeq_ledger (o : Oracle) (l : List Str) (db : DB) :
    (execSeq o db l).1.ledger = db.ledger := by
  induction l generalizing db with
  | nil => rfl
  | cons s ss ih =>
    simp only [execSeq]
    by_cases hs : o.stmtOk s = true
    · simp only [hs, if_true]
      exact ih _
    · simp [hs]

/-- `PG.applyMigration` only appends ledger rows. -/
theorem pg_apply_ledger (o : Oracle) (db : DB) (m : Mig) :
    ∃ ext, (PG.applyMigration o db m).db.ledger = db.ledger ++ ext := by
  simp only [PG.applyMigration]
  split_ifs <;> first
    | exact ⟨[(m.version, m.name)], rfl⟩
    | exact ⟨[], by simp⟩

/-- A successful `PG.applyMigration` leaves its migration applied. -/
theorem pg_apply_applied_of_ok (o : Oracle) (db : DB) (m : Mig)
    (h : (PG.applyMigration o db m).err = none) :
    isMigrationApplied (PG.applyMigration o db m).db m.version = true := by
  simp only [PG.applyMigration] at h ⊢
  split_ifs at h ⊢ <;> simp_all [isMigrationApplied, List.any_append]

/-- `PG.applyMigration` on an applied version is a pure skip. -/
theorem pg_apply_skip (o : Oracle) (db : DB) (m : Mig)
    (h : isMigrationApplied db m.version = true) :
    PG.applyMigration o db m = ⟨db, [.skipped m.version m.name], [], none⟩ := by
  simp [PG.applyMigration, h]

/-- `CQL.applyMigration` only appends ledger rows. -/
theorem cql_apply_ledger (o : Oracle) (db : DB) (m : Mig) :
    ∃ ext, (CQL.applyMigration o db m).db.ledger = db.ledger ++ ext := by
  simp only [CQL.applyMigration]
  split_ifs with h1 h2 h3
  · exact ⟨[], by simp⟩
  · exact ⟨[(m.version, m.name)], by simp [execSeq_ledger]⟩
  · exact ⟨[], by simp [execSeq_ledger]⟩
  · exact ⟨[], by simp [execSeq_ledger]⟩

/-- A successful `CQL.applyMigration` leaves its migration applied. -/
theorem cql_apply_applied_of_ok (o : Oracle) (db : DB) (m : Mig)
    (h : (CQL.applyMigration o db m).err = none) :
    isMigrationApplied (CQL.applyMigration o db m).db m.version = true := by
  simp only [CQL.applyMigration] at h ⊢
  split_ifs at h ⊢ <;> simp_all [isMigrationApplied, List.any_append]

/-- `CQL.applyMigration` on an applied version is a pure skip. -/
theorem cql_apply_skip (o : Oracle) (db : DB) (m : Mig)
    (h : isMigrationApplied db m.version = true) :
    CQL.applyMigration o db m = ⟨db, [.skipped m.version m.name], [], none⟩ := by
  simp [CQL.applyMigration, h]

/-- `MySQL.applyMigration` only appends ledger rows. -/
theorem mysql_apply_ledger (o : Oracle) (db : DB) (m : Mig) :
    ∃ ext, (MySQL.applyMigration o db m).db.ledger = db.ledger ++ ext := by
  simp only [MySQL.applyMigration]
  split_ifs with h1 h2 h3
  · exact ⟨[(m.version, m.name)], rfl⟩
  · exact ⟨[], by simp⟩
  · exact ⟨[], by simp⟩
  · exact ⟨[], by simp⟩

/-- A successful `MySQL.applyMigration` leaves its migration applied. -/
theorem mysql_apply_applied_of_ok (o : Oracle) (db : DB) (m : Mig)
    (h : (MySQL.applyMigration o db m).err = none) :
    isMigrationApplied (MySQL.applyMigration o db m).db m.version = true := by
  simp only [MySQL.applyMigration] at h ⊢
  split_ifs at h ⊢ <;> simp_all [isMigrationApplied, List.any_append]

/-- The mysql migrate loop only appends ledger rows. -/
theorem migrateAll_ledger_append (o : Oracle) (ms : List Mig) (db : DB) :
    ∃ ext, (MySQL.migrateAll o db ms).db.ledger = db.ledger ++ ext := by
  induction ms generalizing db with
  | nil => exact ⟨[], by simp [MySQL.migrateAll]⟩
  | cons m rest ih =>
    simp only [MySQL.migrateAll]
    by_cases ha : isMigrationApplied db m.version = true
    · simp only [ha, if_true]
      exact ih db
    · simp only [ha, Bool.false_eq_true, if_false]
      cases herr : (MySQL.applyMigration o db m).err with
      | some e =>
        obtain ⟨e1, he1⟩ := mysql_apply_ledger o db m
        exact ⟨e1, he1⟩
      | none =>
        obtain ⟨e1, he1⟩ := mysql_apply_ledger o db m
        obtain ⟨e2, he2⟩ := ih ((MySQL.applyMigration o db m).db)
        refine ⟨e1 ++ e2, ?_⟩
        rw [he2, he1, List.append_assoc]

/-- A version applied before the mysql migrate loop is applied after it. -/
theorem migrateAll_applied_mono (o : Oracle) (ms : List Mig) (db : DB) (v : Int)
    (h : isMigrationApplied db v = true) :
    isMigrationApplied (MySQL.migrateAll o db ms).db v = true := by
  obtain ⟨ext, hext⟩ := migrateAll_ledger_append o ms db
  simp only [isMigrationApplied] at h ⊢
  rw [hext, List.any_append, h, Bool.true_or]

/-- After an error-free mysql migrate loop every processed migration is
recorded as applied. -/
theorem migrateAll_all_applied (o : Oracle) (ms : List Mig) (db : DB)
    (h : (MySQL.migrateAll o db ms).err = none) :
    ∀ m ∈ ms, isMigrationApplied (MySQL.migrateAll o db ms).db m.version = true := by
  induction ms generalizing db with
  | nil => intro m hm; simp at hm
  | cons m0 rest ih =>
    intro m hm
    simp only [MySQL.migrateAll] at h ⊢
    by_cases ha : isMigrationApplied db m0.version = true
    · simp only [ha, if_true] at h ⊢
      rcases List.mem_cons.mp hm with heq | hm2
      · subst heq
        exact migrateAll_applied_mono o rest db m.version ha
      · exact ih db h m hm2
    · simp only [ha, Bool.false_eq_true, if_false] at h ⊢
      cases herr : (MySQL.applyMigration o db m0).err with
      | some e =>
        rw [herr] at h
        exact Option.noConfusion h
      | none =>
        rw [herr] at h
        rcases List.mem_cons.mp hm with heq | hm2
        · subst heq
          exact migrateAll_applied_mono o rest _ _ (mysql_apply_applied_of_ok o db m herr)
        · exact ih _ h m hm2

/-- A mysql migrate loop over an all-applied set does nothing at all — not
even a notice. -/
theorem migrateAll_skip_run (o : Oracle) (ms : List Mig) (db : DB)
    (h : ∀ m ∈ ms, isMigrationApplied db m.version = true) :
    MySQL.migrateAll o db ms = ⟨db, [], [], none⟩ := by
  induction ms with
  | nil => rfl
  | cons m rest ih =>
    have hm := h m (List.mem_cons_self m rest)
    simp only [MySQL.migrateAll, hm, if_true]
    exact ih (fun m' hm' => h m' (List.mem_cons_of_mem m hm'))

/-- A mysql-style directory with one well-formed migration file. -/
def filesGoodMySql : FileStore :=
  [(str "20240101000000_create_users_table.sql", contentUsers)]

/-- Counterexample to C7: the claim says the second run emits a
skipped/already-applied notice for each migration.  The mysql `Migrate`
loop performs its already-applied check silently: after a successful first
run over a one-migration set, the second run executes zero statements and
succeeds but emits no notice at all. -/
theorem c7_mysql_second_run_emits_no_notice :
    (MySQL.loadMigrations filesGoodMySql).map List.length = .ok 1 ∧
    (MySQL.Migrate allOk (MySQL.Migrate allOk dbEmpty filesGoodMySql).db
        filesGoodMySql).notices = [] ∧
    (MySQL.Migrate allOk (MySQL.Migrate allOk dbEmpty filesGoodMySql).db
        filesGoodMySql).sent = [] ∧
    (MySQL.Migrate allOk (MySQL.Migrate allOk dbEmpty filesGoodMySql).db
        filesGoodMySql).err = none := by
  decide

/-- C7 as amended: after a first `Migrate` that returns no error, a second
`Migrate` over the same directory finds every loaded migration already
applied, executes zero up statements, leaves the database (ledger
included) unchanged, and returns no error; the postgres and cql engines
emit one skipped notice per loaded migration, while the mysql engine skips
silently with no notice. -/
theorem c7_migrate_idempotent_amended :
    (∀ (o : Oracle) (db : DB) (files : FileStore) (ms : List Mig),
      PG.loadMigrations files = .ok ms →
      (PG.Migrate o db files).err = none →
      PG.Migrate o (PG.Migrate o db files).db files =
        ⟨(PG.Migrate o db files).db, ms.map (fun m => .skipped m.version m.name),
          [], none⟩) ∧
    (∀ (o : Oracle) (db : DB) (files : FileStore) (ms : List Mig),
      CQL.loadMigrations files = .ok ms →
      (CQL.Migrate o db files).err = none →
      CQL.Migrate o (CQL.Migrate o db files).db files =
        ⟨(CQL.Migrate o db files).db, ms.map (fun m => .skipped m.version m.name),
          [], none⟩) ∧
    (∀ (o : Oracle) (db : DB) (files : FileStore),
      (MySQL.Migrate o db files).err = none →
      MySQL.Migrate o (MySQL.Migrate o db files).db files =
        ⟨(MySQL.Migrate o db files).db, [], [], none⟩) := by
  refine ⟨?_, ?_, ?_⟩
  · intro o db files ms hload herr
    simp only [PG.Migrate, hload] at herr ⊢
    exact applyAllWith_skip_run _ (pg_apply_skip o) ms _
      (applyAllWith_all_applied _ (pg_apply_ledger o) (pg_apply_applied_of_ok o)
        ms db herr)
  · intro o db files ms hload herr
    simp only [CQL.Migrate, hload] at herr ⊢
    exact applyAllWith_skip_run _ (cql_apply_skip o) ms _
      (applyAllWith_all_applied _ (cql_apply_ledger o) (cql_apply_applied_of_ok o)
        ms db herr)
  · intro o db files herr
    cases hload : MySQL.loadMigrations files with
    | error e =>
      simp only [MySQL.Migrate, hload] at herr
      exact Option.noConfusion herr
    | ok ms =>
      simp only [MySQL.Migrate, hload] at herr ⊢
      exact migrateAll_skip_run o ms _ (migrateAll_all_applied o ms db herr)

/-- Witness for C7 (amended): a concrete second postgres run over a
one-migration directory reports it skipped and changes nothing. -/
theorem c7_migrate_idempotent_amended_witness :
    PG.Migrate allOk (PG.Migrate allOk dbEmpty filesOneSql).db filesOneSql =
      ⟨(PG.Migrate allOk dbEmpty filesOneSql).db,
        ([migUsers] : List Mig).map (fun m => .skipped m.version m.name),
        [], none⟩ :=
  c7_migrate_idempotent_amended.1 allOk dbEmpty filesOneSql [migUsers]
    (by decide) (by decide)

end Jbmdb
